import Mathlib

/-!
Verification of the Twitch chat analyzer backend (Python sources under
`backend/`) against its natural-language specification.

The Python modules are shallowly embedded:
* Python `dict`s become association lists (`List (String × α)`) with
  first-match lookup; insertion replaces the first occurrence of a key in
  place (Python dicts never hold duplicate keys, and insertion keeps the
  original position of an existing key).
* Sentiment scores are `float`s in the source; no claim performs arithmetic
  on them, so they are embedded as opaque integer values (`Int`).
* `None` / nullable fields become `Option`.
* Coroutine code with shared mutable state (`twitch_irc.start_twitch_bot`,
  `stop_twitch_bot`, `main.websocket_endpoint`) is embedded as a small-step
  transition system: one step per maximal await-free region of the Python
  code, since under `asyncio` control is only handed over at a suspension
  point.
-/

namespace Backend

/-! ## Python dict primitives -/

/-- `d.get(k)` / `d[k]` on a Python dict embedded as an association list:
first-match lookup. -/
def dictGet (m : List (String × α)) (k : String) : Option α :=
  match m with
  | [] => none
  | (k', v) :: rest => if k' = k then some v else dictGet rest k

/-- `d[k] = v` on a Python dict: replace the value at `k` in place if the key
is present, otherwise append the new pair at the end (Python dicts preserve
insertion order). -/
def dictInsert (m : List (String × α)) (k : String) (v : α) : List (String × α) :=
  match m with
  | [] => [(k, v)]
  | (k', v') :: rest => if k' = k then (k', v) :: rest else (k', v') :: dictInsert rest k v

/-- `del d[k]` / `d.pop(k, None)` on a Python dict: drop the first entry
whose key is `k`. -/
def dictRemove (m : List (String × α)) (k : String) : List (String × α) :=
  match m with
  | [] => []
  | (k', v') :: rest => if k' = k then rest else (k', v') :: dictRemove rest k

theorem dictGet_dictInsert (m : List (String × α)) (k k' : String) (v : α) :
    dictGet (dictInsert m k v) k' = if k' = k then some v else dictGet m k' := by
  induction m with
  | nil => simp [dictInsert, dictGet, eq_comm]
  | cons p rest ih =>
    obtain ⟨a, b⟩ := p
    by_cases hak : a = k
    · subst hak
      by_cases hk' : k' = a <;> simp [dictInsert, dictGet, hk', eq_comm]
    · by_cases hak' : a = k'
      · subst hak'
        simp [dictInsert, dictGet, hak]
      · simp [dictInsert, dictGet, hak, hak', ih]

theorem dictGet_mem {m : List (String × α)} {k : String} {v : α}
    (h : dictGet m k = some v) : (k, v) ∈ m := by
  induction m with
  | nil => simp [dictGet] at h
  | cons p rest ih =>
    obtain ⟨a, b⟩ := p
    by_cases hak : a = k
    · subst hak
      simp [dictGet] at h
      subst h
      exact List.mem_cons_self _ _
    · simp [dictGet, hak] at h
      exact List.mem_cons_of_mem _ (ih h)

theorem mem_dictInsert {m : List (String × α)} {p : String × α} {k : String} {v : α}
    (h : p ∈ dictInsert m k v) : p ∈ m ∨ p = (k, v) := by
  induction m with
  | nil => simp [dictInsert] at h; simp [h]
  | cons q rest ih =>
    obtain ⟨a, b⟩ := q
    by_cases hak : a = k
    · subst hak
      simp [dictInsert] at h
      rcases h with h | h
      · right; simp [h]
      · left; exact List.mem_cons_of_mem _ h
    · simp [dictInsert, hak] at h
      rcases h with h | h
      · left; simp [h]
      · rcases ih h with h' | h'
        · left; exact List.mem_cons_of_mem _ h'
        · right; exact h'

theorem mem_dictRemove {m : List (String × α)} {p : String × α} {k : String}
    (h : p ∈ dictRemove m k) : p ∈ m := by
  induction m with
  | nil => simp [dictRemove] at h
  | cons q rest ih =>
    obtain ⟨a, b⟩ := q
    by_cases hak : a = k
    · subst hak
      simp [dictRemove] at h
      exact List.mem_cons_of_mem _ h
    · simp [dictRemove, hak] at h
      rcases h with h | h
      · exact h ▸ List.mem_cons_self _ _
      · exact List.mem_cons_of_mem _ (ih h)

/-- Helper for `pySplit`: walk the characters, accumulating the current word
(in reverse) and cutting at whitespace, never emitting an empty word. -/
def splitWS : List Char → List Char → List String
  | acc, [] => if acc = [] then [] else [String.mk acc.reverse]
  | acc, c :: cs =>
    if c.isWhitespace then
      (if acc = [] then splitWS [] cs else String.mk acc.reverse :: splitWS [] cs)
    else splitWS (c :: acc) cs

/-- Python `str.split()` with no argument: split on runs of whitespace,
discarding empty pieces. -/
def pySplit (s : String) : List String := splitWS [] s.toList

/-- Python `str.lower()`, character by character. -/
def pyLower (s : String) : String := String.mk (s.toList.map Char.toLower)

/-! ## emote_handler.py — emote sets and detection -/

/-- `EmoteSet = Dict[str, str]`: emote name to smallest-resolution URL. -/
abbrev EmoteSet := List (String × String)

/-- `EmoteData` (TypedDict in `emote_handler.py`): name, URL and optional
sentiment score of a detected custom emote. -/
structure EmoteData where
  name : String
  url : String
  sentiment_score : Option Int
deriving DecidableEq, Repr

/-- Lookup in `combined_emotes = {**global_seventv_emotes, **ffz_emotes,
**seventv_emotes}` (`detect_emotes_in_message`, `emote_handler.py` line 237).
In a Python dict display a later unpacking overrides an earlier one on a key
collision, so the effective precedence is 7TV-channel, then FFZ, then 7TV
global. -/
def combinedEmotesGet (ffz_emotes seventv_emotes global_seventv_emotes : EmoteSet)
    (word : String) : Option String :=
  match dictGet seventv_emotes word with
  | some u => some u
  | none =>
    match dictGet ffz_emotes word with
    | some u => some u
    | none => dictGet global_seventv_emotes word

/-- Recursion over the whitespace-split words of the message, following the
`for word in words` loop of `detect_emotes_in_message`. A word that is a key
of the merged dict is appended only when it also has an entry in
`emote_sentiment_scores`; the branch that would append a match without a
catalog entry (with `sentiment_score = None`) is commented out in the
source. -/
def detectWords (ffz_emotes seventv_emotes global_seventv_emotes : EmoteSet)
    (emote_sentiment_scores : List (String × Int)) : List String → List EmoteData
  | [] => []
  | word :: words =>
    match combinedEmotesGet ffz_emotes seventv_emotes global_seventv_emotes word with
    | some url =>
      match dictGet emote_sentiment_scores word with
      | some s =>
        ⟨word, url, some s⟩ ::
          detectWords ffz_emotes seventv_emotes global_seventv_emotes
            emote_sentiment_scores words
      | none =>
        detectWords ffz_emotes seventv_emotes global_seventv_emotes
          emote_sentiment_scores words
    | none =>
      detectWords ffz_emotes seventv_emotes global_seventv_emotes
        emote_sentiment_scores words

/-- `detect_emotes_in_message(message_content, ffz_emotes, seventv_emotes,
global_seventv_emotes)` from `emote_handler.py`, with the module-global
`emote_sentiment_scores` catalog passed explicitly. -/
def detect_emotes_in_message (message_content : String)
    (ffz_emotes seventv_emotes global_seventv_emotes : EmoteSet)
    (emote_sentiment_scores : List (String × Int)) : List EmoteData :=
  detectWords ffz_emotes seventv_emotes global_seventv_emotes emote_sentiment_scores
    (pySplit message_content)

theorem detectWords_sound (ffz tv glob : EmoteSet) (cat : List (String × Int)) :
    ∀ (ws : List String) (e : EmoteData), e ∈ detectWords ffz tv glob cat ws →
      e.name ∈ ws ∧ combinedEmotesGet ffz tv glob e.name = some e.url ∧
        ∃ s, dictGet cat e.name = some s ∧ e.sentiment_score = some s := by
  intro ws
  induction ws with
  | nil => intro e h; simp [detectWords] at h
  | cons w rest ih =>
    intro e h
    unfold detectWords at h
    rcases hc : combinedEmotesGet ffz tv glob w with _ | url
    · rw [hc] at h
      obtain ⟨h1, h2, h3⟩ := ih e h
      exact ⟨List.mem_cons_of_mem _ h1, h2, h3⟩
    · rw [hc] at h
      rcases hs : dictGet cat w with _ | s
      · rw [hs] at h
        obtain ⟨h1, h2, h3⟩ := ih e h
        exact ⟨List.mem_cons_of_mem _ h1, h2, h3⟩
      · rw [hs] at h
        rcases List.mem_cons.1 h with h' | h'
        · subst h'
          exact ⟨List.mem_cons_self _ _, hc, s, hs, rfl⟩
        · obtain ⟨h1, h2, h3⟩ := ih e h'
          exact ⟨List.mem_cons_of_mem _ h1, h2, h3⟩

theorem detectWords_complete (ffz tv glob : EmoteSet) (cat : List (String × Int)) :
    ∀ (ws : List String) (w url : String) (s : Int), w ∈ ws →
      combinedEmotesGet ffz tv glob w = some url → dictGet cat w = some s →
      EmoteData.mk w url (some s) ∈ detectWords ffz tv glob cat ws := by
  intro ws
  induction ws with
  | nil => intro w url s h; simp at h
  | cons w' rest ih =>
    intro w url s hmem hc hs
    unfold detectWords
    rcases List.mem_cons.1 hmem with h | h
    · subst h
      rw [hc, hs]
      exact List.mem_cons_self _ _
    · rcases hc' : combinedEmotesGet ffz tv glob w' with _ | url'
      · exact ih w url s h hc hs
      · rcases hs' : dictGet cat w' with _ | s'
        · exact ih w url s h hc hs
        · exact List.mem_cons_of_mem _ (ih w url s h hc hs)

/-- C2: the claim states that a token matching the merged emote mapping is
reported by `detect_emotes_in_message` even when it has no entry in the
sentiment catalog, carrying a null `sentiment_score` — in particular that for
text `"great play LUL"` with `LUL` mapped to `u1` in the FFZ channel mapping
and absent from the catalog, the output contains
`{name := "LUL", url := "u1", sentiment_score := none}`. It does not: the
branch appending catalog-less matches is commented out in the source, so the
output is empty and in particular does not contain that detection. -/
theorem C2_counterexample :
    detect_emotes_in_message "great play LUL" [("LUL", "u1")] [] [] [] = [] ∧
      EmoteData.mk "LUL" "u1" none ∉
        detect_emotes_in_message "great play LUL" [("LUL", "u1")] [] [] [] := by
  exact ⟨rfl, by decide⟩

/-- C2 (amended): a whitespace-delimited token of the text is reported by
`detect_emotes_in_message` exactly when it matches the merged emote mapping
AND has an entry in the sentiment catalog; every reported detection carries
the merged-mapping URL and the catalog's (non-null) sentiment score, and a
match with no catalog entry is silently dropped rather than reported with a
null score. -/
theorem C2_amended_detection_requires_catalog
    (content : String) (ffz tv glob : EmoteSet) (cat : List (String × Int)) :
    (∀ e ∈ detect_emotes_in_message content ffz tv glob cat,
        e.name ∈ pySplit content ∧
        combinedEmotesGet ffz tv glob e.name = some e.url ∧
        ∃ s, dictGet cat e.name = some s ∧ e.sentiment_score = some s) ∧
    (∀ w ∈ pySplit content, ∀ url s,
        combinedEmotesGet ffz tv glob w = some url → dictGet cat w = some s →
        EmoteData.mk w url (some s) ∈ detect_emotes_in_message content ffz tv glob cat) := by
  constructor
  · intro e he
    exact detectWords_sound ffz tv glob cat (pySplit content) e he
  · intro w hw url s hc hs
    exact detectWords_complete ffz tv glob cat (pySplit content) w url s hw hc hs

theorem C2_amended_witness :
    (∀ e ∈ detect_emotes_in_message "great play LUL" [("LUL", "u1")] [] [] [("LUL", 2)],
        e.name ∈ pySplit "great play LUL" ∧
        combinedEmotesGet [("LUL", "u1")] [] [] e.name = some e.url ∧
        ∃ s, dictGet [("LUL", 2)] e.name = some s ∧ e.sentiment_score = some s) ∧
    (∀ w ∈ pySplit "great play LUL", ∀ url s,
        combinedEmotesGet [("LUL", "u1")] [] [] w = some url →
        dictGet [("LUL", 2)] w = some s →
        EmoteData.mk w url (some s) ∈
          detect_emotes_in_message "great play LUL" [("LUL", "u1")] [] [] [("LUL", 2)]) :=
  C2_amended_detection_requires_catalog "great play LUL" [("LUL", "u1")] [] [] [("LUL", 2)]

/-- C3: the claim states the merged mapping resolves name collisions with
precedence FFZ over 7TV-channel over global. In the source the merged dict is
`{**global_seventv_emotes, **ffz_emotes, **seventv_emotes}` where a later
unpacking wins, so a name in both FFZ (at `u1`) and the 7TV channel set (at
`u2`) resolves to the 7TV-channel URL `u2`, not the FFZ URL — refuting the
claimed FFZ-over-7TV order at this concrete input. -/
theorem C3_counterexample :
    detect_emotes_in_message "X" [("X", "u1")] [("X", "u2")] [] [("X", 1)] =
      [EmoteData.mk "X" "u2" (some 1)] ∧
    EmoteData.mk "X" "u1" (some 1) ∉
      detect_emotes_in_message "X" [("X", "u1")] [("X", "u2")] [] [("X", 1)] ∧
    ("u2" : String) ≠ "u1" := by
  exact ⟨rfl, by decide, by decide⟩

/-- C3 (amended): the merged mapping used by `detect_emotes_in_message`
resolves a name with precedence 7TV-channel over FFZ over global (the source
merges `{**global, **ffz, **seventv}`, where a later unpacking shadows an
earlier one); in particular a name present in either channel source always
resolves to a channel-source URL, shadowing the global entry. -/
theorem C3_amended_merge_precedence (ffz tv glob : EmoteSet) (n : String) :
    (∀ u, dictGet tv n = some u → combinedEmotesGet ffz tv glob n = some u) ∧
    (dictGet tv n = none →
      ∀ u, dictGet ffz n = some u → combinedEmotesGet ffz tv glob n = some u) ∧
    (dictGet tv n = none → dictGet ffz n = none →
      combinedEmotesGet ffz tv glob n = dictGet glob n) ∧
    ((dictGet tv n).isSome ∨ (dictGet ffz n).isSome →
      ∃ u, combinedEmotesGet ffz tv glob n = some u ∧
        (dictGet tv n = some u ∨ dictGet ffz n = some u)) := by
  refine ⟨?_, ?_, ?_, ?_⟩
  · intro u h
    simp [combinedEmotesGet, h]
  · intro htv u h
    simp [combinedEmotesGet, htv, h]
  · intro htv hffz
    simp [combinedEmotesGet, htv, hffz]
  · intro h
    rcases htv : dictGet tv n with _ | u
    · rcases hffz : dictGet ffz n with _ | u
      · rw [htv, hffz] at h
        simp at h
      · exact ⟨u, by simp [combinedEmotesGet, htv, hffz], Or.inr rfl⟩
    · exact ⟨u, by simp [combinedEmotesGet, htv], Or.inl rfl⟩

theorem C3_amended_witness :
    (∀ u, dictGet [("X", "u2")] "X" = some u →
      combinedEmotesGet [("X", "u1")] [("X", "u2")] [("X", "u0")] "X" = some u) ∧
    (dictGet [("X", "u2")] "X" = none →
      ∀ u, dictGet [("X", "u1")] "X" = some u →
        combinedEmotesGet [("X", "u1")] [("X", "u2")] [("X", "u0")] "X" = some u) ∧
    (dictGet [("X", "u2")] "X" = none → dictGet [("X", "u1")] "X" = none →
      combinedEmotesGet [("X", "u1")] [("X", "u2")] [("X", "u0")] "X" =
        dictGet [("X", "u0")] "X") ∧
    ((dictGet [("X", "u2")] "X").isSome ∨ (dictGet [("X", "u1")] "X").isSome →
      ∃ u, combinedEmotesGet [("X", "u1")] [("X", "u2")] [("X", "u0")] "X" = some u ∧
        (dictGet [("X", "u2")] "X" = some u ∨ dictGet [("X", "u1")] "X" = some u)) :=
  C3_amended_merge_precedence [("X", "u1")] [("X", "u2")] [("X", "u0")] "X"

/-! ## Module-level mutable state: sentiment catalog, global emote cache -/

/-- The process-wide mutable state of `nlp_processor.py` and
`emote_handler.py`: the emote sentiment catalog loaded from
`emoji_sentiment_scores.csv`, the cached 7TV global emote mapping
(`seventv_global_cache`, `None` until first fetched), and the per-channel
`emote_cache`. -/
structure BackendState where
  emote_sentiment_scores : List (String × Int)
  seventv_global_cache : Option EmoteSet
  emote_cache : List (String × (EmoteSet × EmoteSet))
deriving Repr, DecidableEq

/-- `load_emote_sentiment_scores` (`nlp_processor.py`): for each parsed CSV
row `(EmoteName, SentimentScore)`, assign `emote_sentiment_scores[name] =
score` into the current dict. Rows with missing or unparsable fields are
skipped by the source before reaching the assignment, so `rows` holds only
the valid parsed rows. -/
def load_emote_sentiment_scores (rows : List (String × Int))
    (cur : List (String × Int)) : List (String × Int) :=
  rows.foldl (fun acc r => dictInsert acc r.1 r.2) cur

/-- `reload_emote_sentiment_scores` (`nlp_processor.py`): clear the catalog,
reload it from the CSV, return the new entry count. -/
def reload_emote_sentiment_scores (st : BackendState) (rows : List (String × Int)) :
    Nat × BackendState :=
  let newScores := load_emote_sentiment_scores rows []
  (newScores.length, { st with emote_sentiment_scores := newScores })

/-- The JSON body returned by the `/reload-emoji-sentiments` endpoint
(`main.py`), success path. -/
structure ReloadResponse where
  success : Bool
  emote_count : Nat
deriving Repr, DecidableEq

/-- `reload_emoji_sentiments` (`main.py`): the administrative reload
endpoint. It calls `reload_emote_sentiment_scores` and reports the count it
returns. -/
def reload_emoji_sentiments (st : BackendState) (rows : List (String × Int)) :
    ReloadResponse × BackendState :=
  let r := reload_emote_sentiment_scores st rows
  (⟨true, r.1⟩, r.2)

/-- The responses of the external collaborators consumed by
`fetch_all_emotes_for_channel`: the Twitch identity lookup
(`get_twitch_user_id`, `None` on missing credentials, not-found, or HTTP
error), the FFZ room fetch (`get_ffz_emotes`, empty on 404 or error), the
7TV channel fetch keyed by Twitch user id, and the 7TV global fetch. -/
structure FetchWorld where
  twitch_user_id : Option String
  ffz_result : EmoteSet
  seventv_channel_result : String → EmoteSet
  seventv_global_result : EmoteSet

/-- `fetch_all_emotes_for_channel` (`emote_handler.py`): fetch the 7TV
global mapping only when `seventv_global_cache` is `None`; resolve the
Twitch user id; fetch FFZ by channel name unconditionally and the 7TV
channel set only when an id was found (otherwise that one mapping is empty);
cache the channel results and return all three mappings. -/
def fetch_all_emotes_for_channel (w : FetchWorld) (channel_name : String)
    (st : BackendState) : (EmoteSet × EmoteSet × EmoteSet) × BackendState :=
  let channel_name_lower := pyLower channel_name
  let cache1 : Option EmoteSet :=
    match st.seventv_global_cache with
    | none => some w.seventv_global_result
    | some g => some g
  let ffz_emotes := w.ffz_result
  let seventv_channel_emotes :=
    match w.twitch_user_id with
    | some uid => w.seventv_channel_result uid
    | none => []
  let st' := { st with
    seventv_global_cache := cache1,
    emote_cache :=
      dictInsert st.emote_cache channel_name_lower (ffz_emotes, seventv_channel_emotes) }
  ((ffz_emotes, seventv_channel_emotes, cache1.getD []), st')

/-- C4: the claim states the `/reload-emoji-sentiments` endpoint invalidates
the global emote cache, forcing Sessions to refetch it on next start. At this
concrete input the endpoint leaves `seventv_global_cache` untouched (still
the old cached mapping, not `None`), a subsequent Session start serves the
stale cached global mapping `g0` instead of refetching the new one `g1`, and
the returned count is the reloaded sentiment catalog's count. -/
theorem C4_counterexample :
    ((reload_emoji_sentiments ⟨[("old", 1)], some [("G", "g0")], []⟩
        [("new1", 1), ("new2", 2)]).2).seventv_global_cache = some [("G", "g0")] ∧
    ((reload_emoji_sentiments ⟨[("old", 1)], some [("G", "g0")], []⟩
        [("new1", 1), ("new2", 2)]).2).seventv_global_cache ≠ none ∧
    ((fetch_all_emotes_for_channel ⟨some "42", [], fun _ => [], [("G", "g1")]⟩ "chan"
        (reload_emoji_sentiments ⟨[("old", 1)], some [("G", "g0")], []⟩
          [("new1", 1), ("new2", 2)]).2).1).2.2 = [("G", "g0")] ∧
    (reload_emoji_sentiments ⟨[("old", 1)], some [("G", "g0")], []⟩
        [("new1", 1), ("new2", 2)]).1.emote_count = 2 :=
  ⟨rfl, by decide, rfl, rfl⟩

/-- C4 (amended): the `/reload-emoji-sentiments` endpoint reloads the emote
sentiment catalog from the CSV and returns the new catalog entry count; it
does not touch the 7TV global emote cache (or the per-channel emote cache),
so Sessions starting after the reload observe exactly the same global
mapping as before it. -/
theorem C4_amended_reload_targets_sentiment_catalog
    (st : BackendState) (rows : List (String × Int)) :
    ((reload_emoji_sentiments st rows).2).seventv_global_cache =
        st.seventv_global_cache ∧
    ((reload_emoji_sentiments st rows).2).emote_cache = st.emote_cache ∧
    ((reload_emoji_sentiments st rows).2).emote_sentiment_scores =
        load_emote_sentiment_scores rows [] ∧
    (reload_emoji_sentiments st rows).1.success = true ∧
    (reload_emoji_sentiments st rows).1.emote_count =
        (load_emote_sentiment_scores rows []).length ∧
    (∀ (w : FetchWorld) (c : String),
      ((fetch_all_emotes_for_channel w c (reload_emoji_sentiments st rows).2).1).2.2 =
        ((fetch_all_emotes_for_channel w c st).1).2.2) :=
  ⟨rfl, rfl, rfl, rfl, rfl, fun _ _ => rfl⟩

/-- C5: the claim states that when the identity lookup fails
(`get_twitch_user_id` returns `None`), BOTH channel-scoped mappings come back
empty. At this concrete input the FFZ mapping is fetched by channel name,
independently of the identity lookup, and comes back non-empty; only the 7TV
channel mapping is empty. -/
theorem C5_counterexample :
    ((fetch_all_emotes_for_channel
        ⟨none, [("A", "u")], fun _ => [("B", "v")], []⟩ "chan" ⟨[], none, []⟩).1).1 =
      [("A", "u")] ∧
    ((fetch_all_emotes_for_channel
        ⟨none, [("A", "u")], fun _ => [("B", "v")], []⟩ "chan" ⟨[], none, []⟩).1).1 ≠
      ([] : EmoteSet) ∧
    ((fetch_all_emotes_for_channel
        ⟨none, [("A", "u")], fun _ => [("B", "v")], []⟩ "chan" ⟨[], none, []⟩).1).2.1 =
      ([] : EmoteSet) :=
  ⟨rfl, by decide, rfl⟩

/-- C5 (amended): if the identity lookup fails
(`get_twitch_user_id` returns `None`), the 7TV channel mapping is empty while
the FFZ mapping is still fetched by channel name and returned unchanged; the
global mapping (returned value and cache update) is unaffected by the
identity lookup's outcome. -/
theorem C5_amended_identity_failure_only_affects_7tv
    (w : FetchWorld) (channel : String) (st : BackendState)
    (h : w.twitch_user_id = none) :
    ((fetch_all_emotes_for_channel w channel st).1).2.1 = ([] : EmoteSet) ∧
    ((fetch_all_emotes_for_channel w channel st).1).1 = w.ffz_result ∧
    (∀ uid : Option String,
      ((fetch_all_emotes_for_channel { w with twitch_user_id := uid } channel st).1).2.2 =
        ((fetch_all_emotes_for_channel w channel st).1).2.2) ∧
    (∀ uid : Option String,
      ((fetch_all_emotes_for_channel { w with twitch_user_id := uid } channel st).2).seventv_global_cache =
        ((fetch_all_emotes_for_channel w channel st).2).seventv_global_cache) := by
  refine ⟨?_, rfl, fun _ => rfl, fun _ => rfl⟩
  simp [fetch_all_emotes_for_channel, h]

theorem C5_amended_witness :
    (((fetch_all_emotes_for_channel
        ⟨none, [("A", "u")], fun _ => [], []⟩ "chan" ⟨[], none, []⟩).1).2.1 =
      ([] : EmoteSet)) ∧
    (((fetch_all_emotes_for_channel
        ⟨none, [("A", "u")], fun _ => [], []⟩ "chan" ⟨[], none, []⟩).1).1 =
      FetchWorld.ffz_result ⟨none, [("A", "u")], fun _ => [], []⟩) ∧
    (∀ uid : Option String,
      ((fetch_all_emotes_for_channel
          { (⟨none, [("A", "u")], fun _ => [], []⟩ : FetchWorld) with
            twitch_user_id := uid } "chan" ⟨[], none, []⟩).1).2.2 =
        ((fetch_all_emotes_for_channel
            ⟨none, [("A", "u")], fun _ => [], []⟩ "chan" ⟨[], none, []⟩).1).2.2) ∧
    (∀ uid : Option String,
      ((fetch_all_emotes_for_channel
          { (⟨none, [("A", "u")], fun _ => [], []⟩ : FetchWorld) with
            twitch_user_id := uid } "chan" ⟨[], none, []⟩).2).seventv_global_cache =
        ((fetch_all_emotes_for_channel
            ⟨none, [("A", "u")], fun _ => [], []⟩ "chan" ⟨[], none, []⟩).2).seventv_global_cache) :=
  C5_amended_identity_failure_only_affects_7tv
    ⟨none, [("A", "u")], fun _ => [], []⟩ "chan" ⟨[], none, []⟩ rfl

/-! ## twitch_irc.py — the enrichment pipeline (`TwitchBot.event_message`) -/

/-- One part of the Twitch IRC `emotes` tag, as the source parses it
(`emote_part.split(':', 1)`, then the first `start-end` range): the Twitch
emote id and the first occurrence range within the message text. -/
structure TagPart where
  emote_id : String
  start : Nat
  fin : Nat
deriving Repr, DecidableEq

/-- A raw chat event, with the fields `event_message` reads: the echo flag,
text content, author, timestamp, and the parsed native Twitch `emotes` tag
when present (`None` models both a missing `tags` dict and a missing or
falsy `emotes` key). -/
structure RawMessage where
  echo : Bool
  content : String
  author : String
  timestamp : String
  emotes_tag : Option (List TagPart)
deriving Repr, DecidableEq

/-- One entry of the `all_detected_emotes` output list built by
`event_message`: name, URL, source tag (`"twitch"` or `"custom"`), and
optional per-token sentiment. -/
structure DetectedEmote where
  name : String
  url : String
  type : String
  sentiment_score : Option Int
deriving Repr, DecidableEq

/-- The `payload` dict of the `chat_message` event that `event_message`
broadcasts. -/
structure ChatPayload where
  timestamp : String
  author : String
  content : String
  sentiment_score : Option Int
  sentiment_words : List (String × Int)
  keywords : List String
  detected_emotes : List DetectedEmote
deriving Repr, DecidableEq

/-- The Twitch CDN URL the source builds for a native emote id. -/
def twitchCdnUrl (emote_id : String) : String :=
  "https://static-cdn.jtvnw.net/emoticons/v2/" ++ emote_id ++ "/default/dark/1.0"

/-- Python `message.content[start:end+1]`: the code-point slice naming the
emote occurrence of a tag range. -/
def pySlice (s : String) (start fin : Nat) : String :=
  String.mk ((s.toList.drop start).take (fin + 1 - start))

/-- Step 1 of the emote merge in `event_message`: walk the native Twitch tag
parts, appending one entry per not-yet-processed name with type `"twitch"`,
the CDN URL, and the per-token sentiment from `sentiment_words`; record each
appended name in `processed_emote_names`. -/
def processTwitchTags (content : String) (sentiment_words : List (String × Int)) :
    List TagPart → List DetectedEmote → List String → List DetectedEmote × List String
  | [], acc, processed => (acc, processed)
  | p :: ps, acc, processed =>
    let emote_name := pySlice content p.start p.fin
    if emote_name ∈ processed then
      processTwitchTags content sentiment_words ps acc processed
    else
      processTwitchTags content sentiment_words ps
        (acc ++ [⟨emote_name, twitchCdnUrl p.emote_id, "twitch",
          dictGet sentiment_words emote_name⟩])
        (emote_name :: processed)

/-- Step 2 of the emote merge in `event_message`: walk the custom (FFZ/7TV)
detections, appending one entry per not-yet-processed name with type
`"custom"` (`custom_emote.get('source', 'custom')`; `EmoteData` carries no
`source` key, so the default always applies) and the per-token sentiment
from `sentiment_words`. -/
def processCustomEmotes (sentiment_words : List (String × Int)) :
    List EmoteData → List DetectedEmote → List String → List DetectedEmote × List String
  | [], acc, processed => (acc, processed)
  | c :: cs, acc, processed =>
    if c.name ∈ processed then
      processCustomEmotes sentiment_words cs acc processed
    else
      processCustomEmotes sentiment_words cs
        (acc ++ [⟨c.name, c.url, "custom", dictGet sentiment_words c.name⟩])
        (c.name :: processed)

/-- The `try/except` around the `analyze_sentiment` call in `event_message`:
a raised exception (`.error`) is caught and replaced by the neutral score
`0.0` with empty word scores. -/
def sentimentOf (sentimentResult : Except Unit (Option Int × List (String × Int))) :
    Option Int × List (String × Int) :=
  match sentimentResult with
  | .ok r => r
  | .error _ => (some 0, [])

/-- The native-tag phase of `event_message`: run `processTwitchTags` on the
parsed `emotes` tag when present, else start from empty accumulators. -/
def tagStep (msg : RawMessage) (sentiment_words : List (String × Int)) :
    List DetectedEmote × List String :=
  match msg.emotes_tag with
  | some parts => processTwitchTags msg.content sentiment_words parts [] []
  | none => ([], [])

/-- `TwitchBot.event_message` (`twitch_irc.py`): returns the broadcast
`chat_message` payload, or `none` when no event is broadcast (echo messages
and empty content return early). External collaborators are passed as data:
the emote snapshot held by the bot (`ffz`, `seventv_channel`,
`seventv_global`), the sentiment catalog, the result of `analyze_sentiment`,
and the `extract_keywords` output (that function catches its own exceptions
internally and returns a list in all cases). -/
def event_message (msg : RawMessage) (ffz seventv_channel seventv_global : EmoteSet)
    (emote_sentiment_scores : List (String × Int))
    (sentimentResult : Except Unit (Option Int × List (String × Int)))
    (keywords : List String) : Option ChatPayload :=
  if msg.echo then none
  else if msg.content = "" then none
  else
    let sr := sentimentOf sentimentResult
    let sentiment_score := sr.1
    let sentiment_words := sr.2
    let all_custom_emotes :=
      detect_emotes_in_message msg.content ffz seventv_channel seventv_global
        emote_sentiment_scores
    let step1 := tagStep msg sentiment_words
    let step2 := processCustomEmotes sentiment_words all_custom_emotes step1.1 step1.2
    some ⟨msg.timestamp, msg.author, msg.content, sentiment_score, sentiment_words,
      keywords, step2.1⟩

/-- C6: the claim states that when enrichment throws (sentiment scoring
raises), the message is dropped and no event is emitted for it. At this
concrete input — a non-echo message `"hi"` whose `analyze_sentiment` call
raises — `event_message` still emits a `chat_message` event, with the
compound score defaulted to the neutral `0.0` and empty word scores; only
the "session not terminated / neutral default" half of the claim holds. -/
theorem C6_counterexample :
    event_message ⟨false, "hi", "a", "t", none⟩ [] [] [] [] (.error ()) [] =
      some ⟨"t", "a", "hi", some 0, [], [], []⟩ ∧
    event_message ⟨false, "hi", "a", "t", none⟩ [] [] [] [] (.error ()) [] ≠ none :=
  ⟨rfl, by decide⟩

/-- C6 (amended): a sentiment-scoring exception on a single message never
terminates the session and never propagates: `event_message` catches it,
defaults the per-message compound score to the neutral `0.0` with empty
per-token scores, and still enriches and broadcasts the message (the message
is NOT dropped — an event carrying the original content is emitted), after
which the read loop continues with the next message. -/
theorem C6_amended_sentiment_failure_neutral_not_dropped
    (msg : RawMessage) (ffz tv glob : EmoteSet) (cat : List (String × Int))
    (kw : List String) (hecho : msg.echo = false) (hcontent : msg.content ≠ "") :
    ∃ p : ChatPayload,
      event_message msg ffz tv glob cat (.error ()) kw = some p ∧
      p.sentiment_score = some 0 ∧ p.sentiment_words = [] ∧
      p.content = msg.content ∧ p.author = msg.author := by
  have h : event_message msg ffz tv glob cat (.error ()) kw =
      some ⟨msg.timestamp, msg.author, msg.content, some 0, [], kw,
        (processCustomEmotes []
          (detect_emotes_in_message msg.content ffz tv glob cat)
          (tagStep msg []).1 (tagStep msg []).2).1⟩ := by
    simp [event_message, hecho, hcontent, sentimentOf]
  exact ⟨_, h, rfl, rfl, rfl, rfl⟩

theorem C6_amended_witness :
    ∃ p : ChatPayload,
      event_message ⟨false, "hi", "a", "t", none⟩ [] [] [] [] (.error ()) [] = some p ∧
      p.sentiment_score = some 0 ∧ p.sentiment_words = [] ∧
      p.content = RawMessage.content ⟨false, "hi", "a", "t", none⟩ ∧
      p.author = RawMessage.author ⟨false, "hi", "a", "t", none⟩ :=
  C6_amended_sentiment_failure_neutral_not_dropped
    ⟨false, "hi", "a", "t", none⟩ [] [] [] [] [] rfl (by decide)

/-- C9: the enrichment pipeline is deterministic. Every input the Python
pipeline reads is explicit in the embedding — the raw event, the Session's
three-mapping emote snapshot, the sentiment catalog, and the two collaborator
results; `event_message` consults no other state and no source of
nondeterminism (Python dict iteration is insertion-ordered), so it embeds as
a pure function, and two runs on equal inputs produce equal enriched
messages — same compound score, per-token scores, keywords, and
detected-emote list in the same order. -/
theorem C9_enrichment_deterministic
    (m m' : RawMessage) (ffz ffz' tv tv' glob glob' : EmoteSet)
    (cat cat' : List (String × Int))
    (sr sr' : Except Unit (Option Int × List (String × Int)))
    (kw kw' : List String)
    (h1 : m = m') (h2 : ffz = ffz') (h3 : tv = tv') (h4 : glob = glob')
    (h5 : cat = cat') (h6 : sr = sr') (h7 : kw = kw') :
    event_message m ffz tv glob cat sr kw =
      event_message m' ffz' tv' glob' cat' sr' kw' := by
  subst h1 h2 h3 h4 h5 h6 h7
  rfl

theorem C9_witness :
    event_message ⟨false, "great play LUL", "a", "t", none⟩
        [("LUL", "u1")] [] [] [("LUL", 2)] (.ok (some 1, [("LUL", 2)])) ["play"] =
      event_message ⟨false, "great play LUL", "a", "t", none⟩
        [("LUL", "u1")] [] [] [("LUL", 2)] (.ok (some 1, [("LUL", 2)])) ["play"] :=
  C9_enrichment_deterministic _ _ _ _ _ _ _ _ _ _ _ _ _ _
    rfl rfl rfl rfl rfl rfl rfl

/-! ### Dedupe lemmas for the two-phase emote merge (claim C7) -/

theorem processTwitchTags_acc_mono (content : String) (sw : List (String × Int)) :
    ∀ (ps : List TagPart) (acc : List DetectedEmote) (proc : List String)
      (e : DetectedEmote), e ∈ acc → e ∈ (processTwitchTags content sw ps acc proc).1 := by
  intro ps
  induction ps with
  | nil => intro acc proc e he; exact he
  | cons p rest ih =>
    intro acc proc e he
    unfold processTwitchTags
    by_cases hmem : pySlice content p.start p.fin ∈ proc
    · simp only [if_pos hmem]
      exact ih acc proc e he
    · simp only [if_neg hmem]
      exact ih _ _ e (List.mem_append_left _ he)

theorem processTwitchTags_proc_mono (content : String) (sw : List (String × Int)) :
    ∀ (ps : List TagPart) (acc : List DetectedEmote) (proc : List String)
      (s : String), s ∈ proc → s ∈ (processTwitchTags content sw ps acc proc).2 := by
  intro ps
  induction ps with
  | nil => intro acc proc s hs; exact hs
  | cons p rest ih =>
    intro acc proc s hs
    unfold processTwitchTags
    by_cases hmem : pySlice content p.start p.fin ∈ proc
    · simp only [if_pos hmem]
      exact ih acc proc s hs
    · simp only [if_neg hmem]
      exact ih _ _ s (List.mem_cons_of_mem _ hs)

theorem processTwitchTags_names_processed (content : String) (sw : List (String × Int)) :
    ∀ (ps : List TagPart) (acc : List DetectedEmote) (proc : List String)
      (p : TagPart), p ∈ ps →
      pySlice content p.start p.fin ∈ (processTwitchTags content sw ps acc proc).2 := by
  intro ps
  induction ps with
  | nil => intro acc proc p hp; simp at hp
  | cons q rest ih =>
    intro acc proc p hp
    unfold processTwitchTags
    rcases List.mem_cons.1 hp with h | h
    · subst h
      by_cases hmem : pySlice content p.start p.fin ∈ proc
      · simp only [if_pos hmem]
        exact processTwitchTags_proc_mono content sw rest acc proc _ hmem
      · simp only [if_neg hmem]
        exact processTwitchTags_proc_mono content sw rest _ _ _
          (List.mem_cons_self _ _)
    · by_cases hmem : pySlice content q.start q.fin ∈ proc
      · simp only [if_pos hmem]
        exact ih acc proc p h
      · simp only [if_neg hmem]
        exact ih _ _ p h

theorem processTwitchTags_origin (content : String) (sw : List (String × Int)) :
    ∀ (ps : List TagPart) (acc : List DetectedEmote) (proc : List String)
      (e : DetectedEmote), e ∈ (processTwitchTags content sw ps acc proc).1 →
      e ∈ acc ∨ (e.type = "twitch" ∧ ∃ q ∈ ps,
        pySlice content q.start q.fin = e.name ∧ e.url = twitchCdnUrl q.emote_id) := by
  intro ps
  induction ps with
  | nil => intro acc proc e he; exact Or.inl he
  | cons q rest ih =>
    intro acc proc e he
    unfold processTwitchTags at he
    by_cases hmem : pySlice content q.start q.fin ∈ proc
    · rw [if_pos hmem] at he
      rcases ih acc proc e he with h | ⟨h1, r, hr, h2, h3⟩
      · exact Or.inl h
      · exact Or.inr ⟨h1, r, List.mem_cons_of_mem _ hr, h2, h3⟩
    · rw [if_neg hmem] at he
      rcases ih _ _ e he with h | ⟨h1, r, hr, h2, h3⟩
      · rcases List.mem_append.1 h with h' | h'
        · exact Or.inl h'
        · rcases List.mem_singleton.1 h' with rfl
          exact Or.inr ⟨rfl, q, List.mem_cons_self _ _, rfl, rfl⟩
      · exact Or.inr ⟨h1, r, List.mem_cons_of_mem _ hr, h2, h3⟩

theorem processTwitchTags_proc_covered (content : String) (sw : List (String × Int)) :
    ∀ (ps : List TagPart) (acc : List DetectedEmote) (proc : List String),
      (∀ s ∈ proc, ∃ e ∈ acc, e.name = s) →
      ∀ s ∈ (processTwitchTags content sw ps acc proc).2,
        ∃ e ∈ (processTwitchTags content sw ps acc proc).1, e.name = s := by
  intro ps
  induction ps with
  | nil => intro acc proc hinv s hs; exact hinv s hs
  | cons q rest ih =>
    intro acc proc hinv s hs
    unfold processTwitchTags at hs ⊢
    by_cases hmem : pySlice content q.start q.fin ∈ proc
    · rw [if_pos hmem] at hs ⊢
      exact ih acc proc hinv s hs
    · rw [if_neg hmem] at hs ⊢
      refine ih _ _ ?_ s hs
      intro s' hs'
      rcases List.mem_cons.1 hs' with h | h
      · exact ⟨_, List.mem_append_right _ (List.mem_singleton.2 rfl), h.symm⟩
      · obtain ⟨e, he, hname⟩ := hinv s' h
        exact ⟨e, List.mem_append_left _ he, hname⟩

theorem processTwitchTags_nodup (content : String) (sw : List (String × Int)) :
    ∀ (ps : List TagPart) (acc : List DetectedEmote) (proc : List String),
      (∀ e ∈ acc, e.name ∈ proc) → (acc.map DetectedEmote.name).Nodup →
      (∀ e ∈ (processTwitchTags content sw ps acc proc).1,
        e.name ∈ (processTwitchTags content sw ps acc proc).2) ∧
      ((processTwitchTags content sw ps acc proc).1.map DetectedEmote.name).Nodup := by
  intro ps
  induction ps with
  | nil => intro acc proc h1 h2; exact ⟨h1, h2⟩
  | cons q rest ih =>
    intro acc proc h1 h2
    unfold processTwitchTags
    by_cases hmem : pySlice content q.start q.fin ∈ proc
    · simp only [if_pos hmem]
      exact ih acc proc h1 h2
    · simp only [if_neg hmem]
      refine ih _ _ ?_ ?_
      · intro e he
        rcases List.mem_append.1 he with h | h
        · exact List.mem_cons_of_mem _ (h1 e h)
        · rcases List.mem_singleton.1 h with rfl
          exact List.mem_cons_self _ _
      · rw [List.map_append]
        refine List.Nodup.append h2 (List.nodup_singleton _) ?_
        intro a ha hb
        rcases List.mem_singleton.1 hb with rfl
        obtain ⟨e, he, hname⟩ := List.mem_map.1 ha
        refine hmem ?_
        have hn := h1 e he
        rwa [hname] at hn

theorem processCustomEmotes_acc_mono (sw : List (String × Int)) :
    ∀ (cs : List EmoteData) (acc : List DetectedEmote) (proc : List String)
      (e : DetectedEmote), e ∈ acc → e ∈ (processCustomEmotes sw cs acc proc).1 := by
  intro cs
  induction cs with
  | nil => intro acc proc e he; exact he
  | cons c rest ih =>
    intro acc proc e he
    unfold processCustomEmotes
    by_cases hmem : c.name ∈ proc
    · simp only [if_pos hmem]
      exact ih acc proc e he
    · simp only [if_neg hmem]
      exact ih _ _ e (List.mem_append_left _ he)

theorem processCustomEmotes_fresh_or_old (sw : List (String × Int)) :
    ∀ (cs : List EmoteData) (acc : List DetectedEmote) (proc : List String)
      (e : DetectedEmote), e ∈ (processCustomEmotes sw cs acc proc).1 →
      e ∈ acc ∨ e.name ∉ proc := by
  intro cs
  induction cs with
  | nil => intro acc proc e he; exact Or.inl he
  | cons c rest ih =>
    intro acc proc e he
    unfold processCustomEmotes at he
    by_cases hmem : c.name ∈ proc
    · rw [if_pos hmem] at he
      exact ih acc proc e he
    · rw [if_neg hmem] at he
      rcases ih _ _ e he with h | h
      · rcases List.mem_append.1 h with h' | h'
        · exact Or.inl h'
        · rcases List.mem_singleton.1 h' with rfl
          exact Or.inr hmem
      · exact Or.inr fun hc => h (List.mem_cons_of_mem _ hc)

theorem processCustomEmotes_nodup (sw : List (String × Int)) :
    ∀ (cs : List EmoteData) (acc : List DetectedEmote) (proc : List String),
      (∀ e ∈ acc, e.name ∈ proc) → (acc.map DetectedEmote.name).Nodup →
      ((processCustomEmotes sw cs acc proc).1.map DetectedEmote.name).Nodup := by
  intro cs
  induction cs with
  | nil => intro acc proc _ h2; exact h2
  | cons c rest ih =>
    intro acc proc h1 h2
    unfold processCustomEmotes
    by_cases hmem : c.name ∈ proc
    · simp only [if_pos hmem]
      exact ih acc proc h1 h2
    · simp only [if_neg hmem]
      refine ih _ _ ?_ ?_
      · intro e he
        rcases List.mem_append.1 he with h | h
        · exact List.mem_cons_of_mem _ (h1 e h)
        · rcases List.mem_singleton.1 h with rfl
          exact List.mem_cons_self _ _
      · rw [List.map_append]
        refine List.Nodup.append h2 (List.nodup_singleton _) ?_
        intro a ha hb
        rcases List.mem_singleton.1 hb with rfl
        obtain ⟨e, he, hname⟩ := List.mem_map.1 ha
        refine hmem ?_
        have hn := h1 e he
        rwa [hname] at hn

theorem countP_eq_one_of_nodup_map {α β : Type} [DecidableEq β] (f : α → β)
    (l : List α) (hnd : (l.map f).Nodup) (e : α) (he : e ∈ l) (b : β)
    (hfe : f e = b) : l.countP (fun x => decide (f x = b)) = 1 := by
  induction l with
  | nil => simp at he
  | cons x xs ih =>
    rw [List.map_cons, List.nodup_cons] at hnd
    rcases List.mem_cons.1 he with h | h
    · subst h
      rw [List.countP_cons, if_pos (by simp [hfe])]
      have hzero : xs.countP (fun x => decide (f x = b)) = 0 := by
        rw [List.countP_eq_zero]
        intro a ha hfa
        exact hnd.1 (List.mem_map.2 ⟨a, ha, by
          have := of_decide_eq_true hfa
          rw [this, hfe]⟩)
      omega
    · have hone := ih hnd.2 h
      rw [List.countP_cons, if_neg ?_]
      · omega
      · intro hfx
        have hfx' := of_decide_eq_true hfx
        exact hnd.1 (List.mem_map.2 ⟨e, h, by rw [hfe, hfx']⟩)

/-- C7 (confirmed): when the same emote name is reported both by the native
Twitch `emotes` tag and by a custom-source (FFZ/7TV) detection, the
`detected_emotes` list of the broadcast payload contains exactly one entry
for that name, and that entry carries the native tag's source: type
`"twitch"` with the Twitch CDN URL of a tag part naming it. The source
processes native tags first, recording each name in
`processed_emote_names`, and the custom pass skips names already
processed. -/
theorem C7_native_tag_wins_dedupe
    (msg : RawMessage) (ffz tv glob : EmoteSet) (cat : List (String × Int))
    (sr : Except Unit (Option Int × List (String × Int))) (kw : List String)
    (parts : List TagPart) (p : TagPart) (n : String) (payload : ChatPayload)
    (hecho : msg.echo = false) (hcontent : msg.content ≠ "")
    (htag : msg.emotes_tag = some parts) (hp : p ∈ parts)
    (hn : pySlice msg.content p.start p.fin = n)
    (hcustom : n ∈ (detect_emotes_in_message msg.content ffz tv glob cat).map
      EmoteData.name)
    (heq : event_message msg ffz tv glob cat sr kw = some payload) :
    payload.detected_emotes.countP (fun e => decide (e.name = n)) = 1 ∧
    ∀ e ∈ payload.detected_emotes, e.name = n →
      e.type = "twitch" ∧ ∃ q ∈ parts, pySlice msg.content q.start q.fin = n ∧
        e.url = twitchCdnUrl q.emote_id := by
  have hshape : payload.detected_emotes =
      (processCustomEmotes (sentimentOf sr).2
        (detect_emotes_in_message msg.content ffz tv glob cat)
        (processTwitchTags msg.content (sentimentOf sr).2 parts [] []).1
        (processTwitchTags msg.content (sentimentOf sr).2 parts [] []).2).1 := by
    simp [event_message, hecho, hcontent, tagStep, htag] at heq
    rw [← heq]
  set sw := (sentimentOf sr).2 with hsw
  set customs := detect_emotes_in_message msg.content ffz tv glob cat with hcustoms
  set acc1 := (processTwitchTags msg.content sw parts [] []).1 with hacc1
  set proc1 := (processTwitchTags msg.content sw parts [] []).2 with hproc1
  have hn_proc1 : n ∈ proc1 := by
    rw [hproc1, ← hn]
    exact processTwitchTags_names_processed msg.content sw parts [] [] p hp
  have hcov : ∃ e ∈ acc1, e.name = n := by
    rw [hacc1]
    exact processTwitchTags_proc_covered msg.content sw parts [] []
      (by intro s hs; simp at hs) n (hproc1 ▸ hn_proc1)
  obtain ⟨e1, he1, hname1⟩ := hcov
  have he1' : e1 ∈ payload.detected_emotes := by
    rw [hshape]
    exact processCustomEmotes_acc_mono sw customs acc1 proc1 e1 he1
  have hinv := processTwitchTags_nodup msg.content sw parts [] []
    (by intro e he; simp at he) (by simp)
  have hnd : (payload.detected_emotes.map DetectedEmote.name).Nodup := by
    rw [hshape]
    exact processCustomEmotes_nodup sw customs acc1 proc1 hinv.1 hinv.2
  refine ⟨countP_eq_one_of_nodup_map DetectedEmote.name payload.detected_emotes
    hnd e1 he1' n hname1, ?_⟩
  intro e he hen
  rw [hshape] at he
  rcases processCustomEmotes_fresh_or_old sw customs acc1 proc1 e he with hacc | hnot
  · rcases processTwitchTags_origin msg.content sw parts [] [] e hacc with
      habs | ⟨ht, q, hq, hslice, hurl⟩
    · simp at habs
    · exact ⟨ht, q, hq, hen ▸ hslice, hurl⟩
  · exact absurd hn_proc1 (hen ▸ hnot)

theorem C7_witness :
    (RawMessage.echo ⟨false, "Kappa", "a", "t", some [⟨"25", 0, 4⟩]⟩ = false) ∧
    (RawMessage.content ⟨false, "Kappa", "a", "t", some [⟨"25", 0, 4⟩]⟩ ≠ "") ∧
    ((ChatPayload.detected_emotes
        ⟨"t", "a", "Kappa", some 1, [], [],
          [⟨"Kappa", twitchCdnUrl "25", "twitch", none⟩]⟩).countP
      (fun e => decide (e.name = "Kappa")) = 1 ∧
    ∀ e ∈ ChatPayload.detected_emotes
        ⟨"t", "a", "Kappa", some 1, [], [],
          [⟨"Kappa", twitchCdnUrl "25", "twitch", none⟩]⟩, e.name = "Kappa" →
      e.type = "twitch" ∧ ∃ q ∈ [(⟨"25", 0, 4⟩ : TagPart)],
        pySlice (RawMessage.content ⟨false, "Kappa", "a", "t", some [⟨"25", 0, 4⟩]⟩)
          q.start q.fin = "Kappa" ∧ e.url = twitchCdnUrl q.emote_id) :=
  ⟨rfl, by decide,
    C7_native_tag_wins_dedupe
      ⟨false, "Kappa", "a", "t", some [⟨"25", 0, 4⟩]⟩
      [("Kappa", "u")] [] [] [("Kappa", 1)] (.ok (some 1, [])) []
      [⟨"25", 0, 4⟩] ⟨"25", 0, 4⟩ "Kappa"
      ⟨"t", "a", "Kappa", some 1, [], [],
        [⟨"Kappa", twitchCdnUrl "25", "twitch", none⟩]⟩
      rfl (by decide) rfl (by decide) (by decide) (by decide) rfl⟩

/-! ## websocket_manager.py — ConnectionManager -/

/-- `ConnectionManager.active_connections : Dict[str, List[WebSocket]]`,
with client connections embedded as numeric identifiers. -/
abbrev Registry := List (String × List Nat)

/-- `ConnectionManager.connect` (after the transport `accept`): lower-case
the channel key, create an empty list for an unseen channel, then append the
new connection. -/
def connect (conns : Registry) (websocket : Nat) (streamer_name : String) : Registry :=
  let n := pyLower streamer_name
  match dictGet conns n with
  | none => dictInsert conns n ([ websocket ])
  | some l => dictInsert conns n (l ++ [websocket])

/-- `ConnectionManager.disconnect`: remove the first occurrence of the
connection from the channel's list (`list.remove`); delete the channel entry
if the list became empty. A `ValueError` from removing an absent connection
is caught and ignored, and an unknown channel key is a no-op. -/
def disconnect (conns : Registry) (websocket : Nat) (streamer_name : String) : Registry :=
  let n := pyLower streamer_name
  match dictGet conns n with
  | none => conns
  | some l =>
    if websocket ∈ l then
      let l' := l.erase websocket
      if l' = [] then dictRemove conns n else dictInsert conns n l'
    else conns

/-- `ConnectionManager.broadcast_to_streamer`: iterate over a copy of the
channel's connection list, collect every connection whose `send_json` raises
(`sendFails`), then disconnect the collected failures one by one after the
broadcast pass. -/
def broadcast_to_streamer (conns : Registry) (streamer_name : String)
    (sendFails : Nat → Bool) : Registry :=
  let n := pyLower streamer_name
  match dictGet conns n with
  | none => conns
  | some l =>
    let disconnected_clients := l.filter sendFails
    disconnected_clients.foldl (fun c ws => disconnect c ws n) conns

/-- The registry invariant of claim C10: every channel key present in
`active_connections` maps to a non-empty subscriber list. -/
def RegistryWF (conns : Registry) : Prop := ∀ p ∈ conns, p.2 ≠ []

theorem registryWF_dictInsert {conns : Registry} {k : String} {v : List Nat}
    (h : RegistryWF conns) (hv : v ≠ []) : RegistryWF (dictInsert conns k v) := by
  intro p hp
  rcases mem_dictInsert hp with h' | h'
  · exact h p h'
  · rw [h']
    exact hv

theorem registryWF_dictRemove {conns : Registry} {k : String}
    (h : RegistryWF conns) : RegistryWF (dictRemove conns k) :=
  fun p hp => h p (mem_dictRemove hp)

theorem registryWF_connect {conns : Registry} (ws : Nat) (name : String)
    (h : RegistryWF conns) : RegistryWF (connect conns ws name) := by
  rcases hget : dictGet conns (pyLower name) with _ | l
  · simp only [connect, hget]
    exact registryWF_dictInsert h (by simp)
  · simp only [connect, hget]
    exact registryWF_dictInsert h (by simp)

theorem registryWF_disconnect {conns : Registry} (ws : Nat) (name : String)
    (h : RegistryWF conns) : RegistryWF (disconnect conns ws name) := by
  rcases hget : dictGet conns (pyLower name) with _ | l
  · simp only [disconnect, hget]
    exact h
  · simp only [disconnect, hget]
    by_cases hmem : ws ∈ l
    · simp only [if_pos hmem]
      by_cases hnil : l.erase ws = []
      · simp only [if_pos hnil]
        exact registryWF_dictRemove h
      · simp only [if_neg hnil]
        exact registryWF_dictInsert h hnil
    · simp only [if_neg hmem]
      exact h

theorem registryWF_disconnect_foldl {ws : List Nat} {n : String} :
    ∀ {conns : Registry}, RegistryWF conns →
      RegistryWF (ws.foldl (fun c w => disconnect c w n) conns) := by
  induction ws with
  | nil => intro conns h; exact h
  | cons w rest ih =>
    intro conns h
    exact ih (registryWF_disconnect w n h)

theorem registryWF_broadcast {conns : Registry} (name : String) (f : Nat → Bool)
    (h : RegistryWF conns) : RegistryWF (broadcast_to_streamer conns name f) := by
  rcases hget : dictGet conns (pyLower name) with _ | l
  · simp only [broadcast_to_streamer, hget]
    exact h
  · simp only [broadcast_to_streamer, hget]
    exact registryWF_disconnect_foldl h

/-- C10 (confirmed): the subscriber-registry invariant — every channel key
present in `active_connections` maps to a non-empty subscriber list — is
preserved by `connect`, `disconnect` and `broadcast_to_streamer`
(`disconnect` deletes the channel entry when its last subscriber is
removed); removing an unknown subscriber, or from an unknown channel, is a
safe no-op (the `ValueError` is caught); and under the invariant a channel
is listed in the registry if and only if it has at least one subscriber. -/
theorem C10_registry_invariant (conns : Registry) (ws : Nat) (name : String)
    (f : Nat → Bool) (h : RegistryWF conns) :
    RegistryWF (connect conns ws name) ∧
    RegistryWF (disconnect conns ws name) ∧
    RegistryWF (broadcast_to_streamer conns name f) ∧
    (∀ l, dictGet conns (pyLower name) = some l → ws ∉ l →
      disconnect conns ws name = conns) ∧
    (dictGet conns (pyLower name) = none → disconnect conns ws name = conns) ∧
    (∀ k, (dictGet conns k).isSome ↔ ∃ l, dictGet conns k = some l ∧ l ≠ []) := by
  refine ⟨registryWF_connect ws name h, registryWF_disconnect ws name h,
    registryWF_broadcast name f h, ?_, ?_, ?_⟩
  · intro l hget hmem
    simp only [disconnect, hget, if_neg hmem]
  · intro hget
    simp only [disconnect, hget]
  · intro k
    constructor
    · intro hsome
      rcases hget : dictGet conns k with _ | l
      · rw [hget] at hsome
        simp at hsome
      · exact ⟨l, rfl, h (k, l) (dictGet_mem hget)⟩
    · intro ⟨l, hget, _⟩
      rw [hget]
      rfl

theorem C10_witness :
    RegistryWF (connect [("foo", [1])] 2 "foo") ∧
    RegistryWF (disconnect [("foo", [1])] 2 "foo") ∧
    RegistryWF (broadcast_to_streamer [("foo", [1])] "foo" (fun _ => true)) ∧
    (∀ l, dictGet [("foo", [1])] (pyLower "foo") = some l → 2 ∉ l →
      disconnect [("foo", [1])] 2 "foo" = [("foo", [1])]) ∧
    (dictGet [("foo", [1])] (pyLower "foo") = none →
      disconnect [("foo", [1])] 2 "foo" = [("foo", [1])]) ∧
    (∀ k, (dictGet [("foo", [1])] k).isSome ↔
      ∃ l, dictGet [("foo", [1])] k = some l ∧ l ≠ []) :=
  C10_registry_invariant [("foo", [1])] 2 "foo" (fun _ => true)
    (by intro p hp; rcases List.mem_singleton.1 hp with rfl; simp)

/-! ## twitch_irc.py / main.py — session supervisor as a transition system

Under `asyncio`, control is handed over only at a suspension point, so every
maximal await-free region of the Python code is one atomic step. The states
below mark those regions:

* `start_twitch_bot` (acquire): from entry through the `streamer_name in
  active_bots` check is one region (`acqReady`). If the channel is present,
  the code suspends at the "already running" broadcast and only then returns
  `active_bots[streamer_name]` (`acqStatusPending`). If absent and an access
  token is configured there is no further await before `TwitchBot(...)` is
  constructed and registered (`asyncio.create_task` schedules without
  yielding), so check + create + register is a single step; with anonymous
  login the code first suspends at the warning broadcast (`acqWarnPending`)
  and creates + registers only after resuming.
* The teardown path in `websocket_endpoint`'s `finally` block: from
  `manager.disconnect` (an `async def` with no internal await) through the
  `streamer_name not in manager.active_connections` check,
  `stop_twitch_bot`'s `active_bots.pop` and `TwitchBot.stop_bot`'s emote-task
  cancellation is one region (`tdReady`); the first suspension is
  `await self.close()` inside `stop_bot` (`tdClosing`).

Channels are assumed already lower-cased, as `websocket_endpoint` and
`start_twitch_bot` normalize them on entry. `TwitchBot` instances are
numbered by `next_bot`; `bots_created` records every constructed ingestion
connector, `stop_called` the bots whose `stop_bot` was entered, and
`closed_bots` the bots whose `close()` completed. -/

inductive TaskState where
  | acqReady
  | acqWarnPending
  | acqStatusPending
  | acqDone (ret : Option Nat)
  | tdReady (ws : Nat)
  | tdClosing (bot : Nat)
  | tdDone
deriving DecidableEq, Repr

/-- One concurrent task: a `start_twitch_bot` call or a
`websocket_endpoint` teardown, for a channel. -/
structure SupTask where
  channel : String
  state : TaskState
deriving DecidableEq, Repr

/-- The shared mutable module state read and written by the tasks. -/
structure SupState where
  active_bots : List (String × Nat)
  active_connections : Registry
  next_bot : Nat
  bots_created : List Nat
  stop_called : List Nat
  closed_bots : List Nat
deriving DecidableEq, Repr

/-- One atomic step of one task. `tokenPresent` is whether
`TWITCH_ACCESS_TOKEN` is configured: when it is not, `start_twitch_bot`
awaits a warning broadcast between the registry check and the registration
of the new bot. -/
def stepTask (tokenPresent : Bool) (s : SupState) (t : SupTask) : SupState × SupTask :=
  match t.state with
  | .acqReady =>
    match dictGet s.active_bots t.channel with
    | some _ => (s, { t with state := .acqStatusPending })
    | none =>
      if tokenPresent then
        let b := s.next_bot
        ({ s with
            active_bots := dictInsert s.active_bots t.channel b,
            next_bot := b + 1,
            bots_created := s.bots_created ++ [b] },
          { t with state := .acqDone (some b) })
      else
        (s, { t with state := .acqWarnPending })
  | .acqWarnPending =>
    let b := s.next_bot
    ({ s with
        active_bots := dictInsert s.active_bots t.channel b,
        next_bot := b + 1,
        bots_created := s.bots_created ++ [b] },
      { t with state := .acqDone (some b) })
  | .acqStatusPending =>
    (s, { t with state := .acqDone (dictGet s.active_bots t.channel) })
  | .acqDone _ => (s, t)
  | .tdReady ws =>
    let conns := disconnect s.active_connections ws t.channel
    if (dictGet conns t.channel).isSome then
      ({ s with active_connections := conns }, { t with state := .tdDone })
    else
      match dictGet s.active_bots t.channel with
      | some b =>
        ({ s with
            active_connections := conns,
            active_bots := dictRemove s.active_bots t.channel,
            stop_called := b :: s.stop_called },
          { t with state := .tdClosing b })
      | none => ({ s with active_connections := conns }, { t with state := .tdDone })
  | .tdClosing b =>
    ({ s with closed_bots := b :: s.closed_bots }, { t with state := .tdDone })
  | .tdDone => (s, t)

/-- Run the step of the task at index `i` of the task list (a no-op index
models the scheduler picking an unrelated task). -/
def stepSys (tokenPresent : Bool) (cfg : SupState × List SupTask) (i : Nat) :
    SupState × List SupTask :=
  match cfg.2[i]? with
  | none => cfg
  | some t =>
    let r := stepTask tokenPresent cfg.1 t
    (r.1, cfg.2.set i r.2)

/-- Run a schedule: an arbitrary interleaving of the tasks' atomic steps. -/
def runSched (tokenPresent : Bool) (cfg : SupState × List SupTask)
    (sched : List Nat) : SupState × List SupTask :=
  sched.foldl (stepSys tokenPresent) cfg

/-- C1: the claim — only one ingestion connector is ever created for an
unseen channel under concurrent `start_twitch_bot` calls, with every caller
handed the same Session — fails when `TWITCH_ACCESS_TOKEN` is not configured
(anonymous login): each call then suspends at the warning broadcast between
the `streamer_name in active_bots` check and the registration, so two
concurrent calls both pass the check and both construct a `TwitchBot`. Under
the schedule below the two callers create two connectors (`bots_created =
[0, 1]`) and return different handles; the second registration overwrites
the first, orphaning connector `0` while it keeps running. -/
theorem C1_anonymous_login_race_two_connectors :
    (runSched false
        (⟨[], [], 0, [], [], []⟩, [⟨"foo", .acqReady⟩, ⟨"foo", .acqReady⟩])
        [0, 1, 0, 1]).1.bots_created = [0, 1] ∧
    (runSched false
        (⟨[], [], 0, [], [], []⟩, [⟨"foo", .acqReady⟩, ⟨"foo", .acqReady⟩])
        [0, 1, 0, 1]).2 =
      [⟨"foo", .acqDone (some 0)⟩, ⟨"foo", .acqDone (some 1)⟩] ∧
    (some 0 : Option Nat) ≠ some 1 ∧
    dictGet (runSched false
        (⟨[], [], 0, [], [], []⟩, [⟨"foo", .acqReady⟩, ⟨"foo", .acqReady⟩])
        [0, 1, 0, 1]).1.active_bots "foo" = some 1 := by
  refine ⟨rfl, rfl, by decide, rfl⟩

/-- Invariant of the C8 scenario, holding from the moment the teardown step
(the atomic region in which the last subscriber leaves, the channel entry is
deleted, `active_bots.pop` runs and `stop_bot` is entered) has executed:
`stop_bot` has been called on the old bot `b0`, `b0` is out of the registry,
the teardown task is closing or done, and the fresh acquire either has not
yet passed the membership check or is suspended at the anonymous-login
warning broadcast (registry still empty for the channel, nothing created
since `b0`), or has created and registered exactly the one new bot `n0`. -/
def C8Inv (c : String) (b0 n0 : Nat) (cfg : SupState × List SupTask) : Prop :=
  b0 ∈ cfg.1.stop_called ∧
  ∃ tdSt acqSt, cfg.2 = [⟨c, tdSt⟩, ⟨c, acqSt⟩] ∧
    (tdSt = TaskState.tdClosing b0 ∨ tdSt = TaskState.tdDone) ∧
    (((acqSt = TaskState.acqReady ∨ acqSt = TaskState.acqWarnPending) ∧
        dictGet cfg.1.active_bots c = none ∧
        cfg.1.bots_created = [b0] ∧ cfg.1.next_bot = n0) ∨
      (acqSt = TaskState.acqDone (some n0) ∧ dictGet cfg.1.active_bots c = some n0 ∧
        cfg.1.bots_created = [b0, n0] ∧ cfg.1.next_bot = n0 + 1))

theorem C8Inv_stepSys (tokenPresent : Bool) (c : String) (b0 n0 : Nat)
    (cfg : SupState × List SupTask) (i : Nat) (h : C8Inv c b0 n0 cfg) :
    C8Inv c b0 n0 (stepSys tokenPresent cfg i) := by
  obtain ⟨hstop, tdSt, acqSt, htasks, htd, hacq⟩ := h
  obtain ⟨s, tasks⟩ := cfg
  simp only at htasks
  subst htasks
  match i with
  | 0 =>
    rcases htd with h0 | h0 <;> subst h0
    · refine ⟨hstop, .tdDone, acqSt, ?_, Or.inr rfl, ?_⟩
      · simp [stepSys, stepTask]
      · simpa [stepSys, stepTask] using hacq
    · exact ⟨hstop, .tdDone, acqSt, by simp [stepSys, stepTask], Or.inr rfl,
        by simpa [stepSys, stepTask] using hacq⟩
  | 1 =>
    rcases hacq with ⟨ha, hget, hbc, hnb⟩ | ⟨ha, hget, hbc, hnb⟩
    · dsimp only at hstop hget hbc hnb
      rcases ha with ha | ha <;> subst ha
      · -- the acquire runs its membership check: with a token it creates and
        -- registers the one new bot in the same step, without a token it
        -- suspends at the warning broadcast, creating nothing yet.
        cases tokenPresent
        · refine ⟨?_, tdSt, .acqWarnPending, ?_, htd,
            Or.inl ⟨Or.inr rfl, ?_, ?_, ?_⟩⟩ <;>
            simp [stepSys, stepTask, hget, hstop, hbc, hnb]
        · refine ⟨?_, tdSt, .acqDone (some n0), ?_, htd,
            Or.inr ⟨rfl, ?_, ?_, ?_⟩⟩ <;>
            simp [stepSys, stepTask, hget, hstop, dictGet_dictInsert, hbc, hnb]
      · -- the acquire resumes from the warning broadcast and now creates and
        -- registers the one new bot (no token check on this path).
        refine ⟨?_, tdSt, .acqDone (some n0), ?_, htd,
          Or.inr ⟨rfl, ?_, ?_, ?_⟩⟩ <;>
          simp [stepSys, stepTask, hget, hstop, dictGet_dictInsert, hbc, hnb]
    · subst ha
      exact ⟨hstop, tdSt, .acqDone (some n0), by simp [stepSys, stepTask], htd,
        Or.inr ⟨rfl, by simpa [stepSys, stepTask] using hget,
          by simpa [stepSys, stepTask] using hbc,
          by simpa [stepSys, stepTask] using hnb⟩⟩
  | (n + 2) =>
    exact ⟨hstop, tdSt, acqSt, by simp [stepSys], htd,
      by simpa [stepSys] using hacq⟩

theorem C8Inv_runSched (tokenPresent : Bool) (c : String) (b0 n0 : Nat) :
    ∀ (sched : List Nat) (cfg : SupState × List SupTask), C8Inv c b0 n0 cfg →
      C8Inv c b0 n0 (runSched tokenPresent cfg sched) := by
  intro sched
  induction sched with
  | nil => intro cfg h; exact h
  | cons i rest ih =>
    intro cfg h
    exact ih (stepSys tokenPresent cfg i) (C8Inv_stepSys tokenPresent c b0 n0 cfg i h)

theorem C8_first_step (tokenPresent : Bool) (c : String) (hc : pyLower c = c)
    (ws b0 n0 : Nat) :
    stepSys tokenPresent
        (⟨[(c, b0)], [(c, [ws])], n0, [b0], [], []⟩,
          [⟨c, .tdReady ws⟩, ⟨c, .acqReady⟩]) 0 =
      (⟨[], [], n0, [b0], [b0], []⟩, [⟨c, .tdClosing b0⟩, ⟨c, .acqReady⟩]) := by
  simp [stepSys, stepTask, disconnect, dictGet, dictRemove, hc]

/-- C8 (confirmed): once a channel's subscriber count reaches zero, the
whole region from removing the last websocket through `active_bots.pop` and
the entry of `TwitchBot.stop_bot` runs without a suspension point, so by the
time any subsequent `start_twitch_bot` can observe the registry the old
Session is gone from it and its connector's stop has been initiated. In
every schedule that begins with that teardown step — whether or not
`TWITCH_ACCESS_TOKEN` is configured, i.e. including the anonymous-login mode
in which the acquire suspends at the warning broadcast before creating — the
old bot `b0` is never again reachable from the registry, and whenever the
subsequent acquire has completed, it returned a brand-new Session `b1 ≠ b0`,
freshly created and registered — no stale state is reused. -/
theorem C8_teardown_removes_before_reacquire
    (tokenPresent : Bool) (c : String) (ws b0 n0 : Nat) (rest : List Nat)
    (hc : pyLower c = c) (hlt : b0 < n0) :
    b0 ∈ (runSched tokenPresent
        (⟨[(c, b0)], [(c, [ws])], n0, [b0], [], []⟩,
          [⟨c, .tdReady ws⟩, ⟨c, .acqReady⟩]) (0 :: rest)).1.stop_called ∧
    dictGet (runSched tokenPresent
        (⟨[(c, b0)], [(c, [ws])], n0, [b0], [], []⟩,
          [⟨c, .tdReady ws⟩, ⟨c, .acqReady⟩]) (0 :: rest)).1.active_bots c ≠
      some b0 ∧
    (∀ r, (runSched tokenPresent
        (⟨[(c, b0)], [(c, [ws])], n0, [b0], [], []⟩,
          [⟨c, .tdReady ws⟩, ⟨c, .acqReady⟩]) (0 :: rest)).2[1]? =
        some ⟨c, .acqDone r⟩ →
      ∃ b1, r = some b1 ∧ b1 ≠ b0 ∧
        dictGet (runSched tokenPresent
          (⟨[(c, b0)], [(c, [ws])], n0, [b0], [], []⟩,
            [⟨c, .tdReady ws⟩, ⟨c, .acqReady⟩]) (0 :: rest)).1.active_bots c =
          some b1 ∧
        b1 ∈ (runSched tokenPresent
          (⟨[(c, b0)], [(c, [ws])], n0, [b0], [], []⟩,
            [⟨c, .tdReady ws⟩, ⟨c, .acqReady⟩]) (0 :: rest)).1.bots_created) := by
  have hinv : C8Inv c b0 n0 (runSched tokenPresent
      (⟨[(c, b0)], [(c, [ws])], n0, [b0], [], []⟩,
        [⟨c, .tdReady ws⟩, ⟨c, .acqReady⟩]) (0 :: rest)) := by
    have hfold : runSched tokenPresent
        (⟨[(c, b0)], [(c, [ws])], n0, [b0], [], []⟩,
          [⟨c, .tdReady ws⟩, ⟨c, .acqReady⟩]) (0 :: rest) =
        runSched tokenPresent
          (⟨[], [], n0, [b0], [b0], []⟩, [⟨c, .tdClosing b0⟩, ⟨c, .acqReady⟩])
          rest := by
      rw [runSched, List.foldl_cons, C8_first_step tokenPresent c hc ws b0 n0]
      rfl
    rw [hfold]
    exact C8Inv_runSched tokenPresent c b0 n0 rest _
      ⟨by simp, .tdClosing b0, .acqReady, rfl, Or.inl rfl,
        Or.inl ⟨Or.inl rfl, rfl, rfl, rfl⟩⟩
  obtain ⟨hstop, tdSt, acqSt, htasks, htd, hacq⟩ := hinv
  refine ⟨hstop, ?_, ?_⟩
  · rcases hacq with ⟨_, hget, _, _⟩ | ⟨_, hget, _, _⟩
    · rw [hget]
      simp
    · rw [hget]
      intro hEq
      have : n0 = b0 := by injection hEq
      omega
  · intro r hr
    rw [htasks] at hr
    simp only [List.getElem?_cons_succ, List.getElem?_cons_zero,
      Option.some.injEq] at hr
    rcases hacq with ⟨ha, hget, hbc, hnb⟩ | ⟨ha, hget, hbc, hnb⟩
    · rcases ha with ha | ha <;> rw [ha] at hr <;> cases hr
    · rw [ha] at hr
      have hr' : TaskState.acqDone (some n0) = TaskState.acqDone r := by
        have := congrArg SupTask.state hr
        simpa using this
      have hrn : r = some n0 := by
        injection hr' with h'
        exact h'.symm
      exact ⟨n0, hrn, by omega, hget, by rw [hbc]; simp⟩

theorem C8_witness :
    0 ∈ (runSched false
        (⟨[("foo", 0)], [("foo", [7])], 1, [0], [], []⟩,
          [⟨"foo", .tdReady 7⟩, ⟨"foo", .acqReady⟩]) [0, 1, 1, 0]).1.stop_called ∧
    dictGet (runSched false
        (⟨[("foo", 0)], [("foo", [7])], 1, [0], [], []⟩,
          [⟨"foo", .tdReady 7⟩, ⟨"foo", .acqReady⟩]) [0, 1, 1, 0]).1.active_bots "foo" ≠
      some 0 ∧
    (∀ r, (runSched false
        (⟨[("foo", 0)], [("foo", [7])], 1, [0], [], []⟩,
          [⟨"foo", .tdReady 7⟩, ⟨"foo", .acqReady⟩]) [0, 1, 1, 0]).2[1]? =
        some ⟨"foo", .acqDone r⟩ →
      ∃ b1, r = some b1 ∧ b1 ≠ 0 ∧
        dictGet (runSched false
          (⟨[("foo", 0)], [("foo", [7])], 1, [0], [], []⟩,
            [⟨"foo", .tdReady 7⟩, ⟨"foo", .acqReady⟩]) [0, 1, 1, 0]).1.active_bots "foo" =
          some b1 ∧
        b1 ∈ (runSched false
          (⟨[("foo", 0)], [("foo", [7])], 1, [0], [], []⟩,
            [⟨"foo", .tdReady 7⟩, ⟨"foo", .acqReady⟩]) [0, 1, 1, 0]).1.bots_created) :=
  C8_teardown_removes_before_reacquire false "foo" 7 0 1 [1, 1, 0] (by decide) (by decide)

/-- Invariant of a system of concurrent `start_twitch_bot` calls for the
same unseen channel when `TWITCH_ACCESS_TOKEN` is configured: either no call
has run yet (no bot exists), or exactly one bot has been created and
registered and every task has either not run, is awaiting the
"already running" broadcast, or has completed with that one bot. -/
def AcqInv (c : String) (n0 : Nat) (cfg : SupState × List SupTask) : Prop :=
  (∀ t ∈ cfg.2, t.channel = c) ∧
  ((cfg.1.bots_created = [] ∧ dictGet cfg.1.active_bots c = none ∧
      cfg.1.next_bot = n0 ∧ ∀ t ∈ cfg.2, t.state = TaskState.acqReady) ∨
    (cfg.1.bots_created = [n0] ∧ dictGet cfg.1.active_bots c = some n0 ∧
      ∀ t ∈ cfg.2, t.state = TaskState.acqReady ∨
        t.state = TaskState.acqStatusPending ∨
        t.state = TaskState.acqDone (some n0)))

theorem AcqInv_stepSys (c : String) (n0 : Nat) (cfg : SupState × List SupTask)
    (i : Nat) (h : AcqInv c n0 cfg) : AcqInv c n0 (stepSys true cfg i) := by
  obtain ⟨hch, hphase⟩ := h
  obtain ⟨s, tasks⟩ := cfg
  rcases hget : tasks[i]? with _ | t
  · exact ⟨by simpa [stepSys, hget] using hch, by simpa [stepSys, hget] using hphase⟩
  have htmem : t ∈ tasks := List.getElem?_mem hget
  have htch : t.channel = c := hch t htmem
  have hmem_set : ∀ (x : SupTask) (t' : SupTask), t' ∈ tasks.set i x →
      t' ∈ tasks ∨ t' = x := fun x t' h' => List.mem_or_eq_of_mem_set h'
  rcases hphase with ⟨hbc, hreg, hnb, hall⟩ | ⟨hbc, hreg, hall⟩
  · -- phase 1: nothing created yet; only an `acqReady` step can fire,
    -- and it creates and registers the single bot `n0`.
    have htst : t.state = TaskState.acqReady := hall t htmem
    dsimp only at hbc hreg hnb
    have hstep : stepSys true (s, tasks) i =
        ({ s with
            active_bots := dictInsert s.active_bots c s.next_bot,
            next_bot := s.next_bot + 1,
            bots_created := s.bots_created ++ [s.next_bot] },
          tasks.set i ⟨c, .acqDone (some s.next_bot)⟩) := by
      simp [stepSys, hget, stepTask, htst, htch, hreg]
    rw [hstep]
    refine ⟨?_, Or.inr ⟨?_, ?_, ?_⟩⟩
    · intro t' ht'
      rcases hmem_set _ t' ht' with h' | h'
      · exact hch t' h'
      · rw [h']
    · simp [hbc, hnb]
    · simp [dictGet_dictInsert, hnb]
    · intro t' ht'
      rcases hmem_set _ t' ht' with h' | h'
      · exact Or.inl (hall t' h')
      · rw [h', hnb]
        right; right; rfl
  · -- phase 2: the single bot `n0` exists; steps only move tasks between
    -- `acqReady`, `acqStatusPending` and `acqDone (some n0)`.
    dsimp only at hbc hreg
    rcases hall t htmem with htst | htst | htst
    · have hstep : stepSys true (s, tasks) i =
          (s, tasks.set i ⟨c, .acqStatusPending⟩) := by
        simp [stepSys, hget, stepTask, htst, htch, hreg]
      rw [hstep]
      refine ⟨?_, Or.inr ⟨hbc, hreg, ?_⟩⟩
      · intro t' ht'
        rcases hmem_set _ t' ht' with h' | h'
        · exact hch t' h'
        · rw [h']
      · intro t' ht'
        rcases hmem_set _ t' ht' with h' | h'
        · exact hall t' h'
        · rw [h']
          right; left; rfl
    · have hstep : stepSys true (s, tasks) i =
          (s, tasks.set i ⟨c, .acqDone (some n0)⟩) := by
        simp [stepSys, hget, stepTask, htst, htch, hreg]
      rw [hstep]
      refine ⟨?_, Or.inr ⟨hbc, hreg, ?_⟩⟩
      · intro t' ht'
        rcases hmem_set _ t' ht' with h' | h'
        · exact hch t' h'
        · rw [h']
      · intro t' ht'
        rcases hmem_set _ t' ht' with h' | h'
        · exact hall t' h'
        · rw [h']
          right; right; rfl
    · have hstep : stepSys true (s, tasks) i = (s, tasks.set i t) := by
        simp [stepSys, hget, stepTask, htst]
      rw [hstep]
      refine ⟨?_, Or.inr ⟨hbc, hreg, ?_⟩⟩
      · intro t' ht'
        rcases hmem_set _ t' ht' with h' | h'
        · exact hch t' h'
        · rw [h']
          exact htch
      · intro t' ht'
        rcases hmem_set _ t' ht' with h' | h'
        · exact hall t' h'
        · rw [h', htst]
          right; right; rfl

theorem AcqInv_runSched (c : String) (n0 : Nat) :
    ∀ (sched : List Nat) (cfg : SupState × List SupTask), AcqInv c n0 cfg →
      AcqInv c n0 (runSched true cfg sched) := by
  intro sched
  induction sched with
  | nil => intro cfg h; exact h
  | cons i rest ih =>
    intro cfg h
    exact ih (stepSys true cfg i) (AcqInv_stepSys c n0 cfg i h)

/-- Supplement to C1: when `TWITCH_ACCESS_TOKEN` IS configured, the region
from the `streamer_name in active_bots` check through `TwitchBot(...)`
construction and registration contains no suspension point, so it is one
atomic step; then in every interleaving of any number of concurrent
`start_twitch_bot` calls for the same unseen channel, at most one ingestion
connector is created, and every completed caller holds that same single
registered bot. The C1 race is specific to the anonymous-login path. -/
theorem acquire_serializes_with_token
    (c : String) (n0 : Nat) (tasks : List SupTask) (sched : List Nat)
    (s0 : SupState)
    (hbots : s0.bots_created = []) (hreg : dictGet s0.active_bots c = none)
    (hnb : s0.next_bot = n0)
    (htasks : ∀ t ∈ tasks, t = ⟨c, .acqReady⟩) :
    (runSched true (s0, tasks) sched).1.bots_created.length ≤ 1 ∧
    (∀ t ∈ (runSched true (s0, tasks) sched).2, ∀ r,
      t.state = TaskState.acqDone r →
      ∃ b, r = some b ∧ (runSched true (s0, tasks) sched).1.bots_created = [b] ∧
        dictGet (runSched true (s0, tasks) sched).1.active_bots c = some b) := by
  have hinv : AcqInv c n0 (runSched true (s0, tasks) sched) := by
    refine AcqInv_runSched c n0 sched (s0, tasks) ⟨?_, Or.inl ⟨hbots, hreg, hnb, ?_⟩⟩
    · intro t ht
      rw [htasks t ht]
    · intro t ht
      rw [htasks t ht]
  obtain ⟨_, hphase⟩ := hinv
  rcases hphase with ⟨hbc, _, _, hall⟩ | ⟨hbc, hreg', hall⟩
  · refine ⟨by rw [hbc]; simp, ?_⟩
    intro t ht r hr
    rw [hall t ht] at hr
    cases hr
  · refine ⟨by rw [hbc]; simp, ?_⟩
    intro t ht r hr
    rcases hall t ht with h' | h' | h' <;> rw [h'] at hr
    · cases hr
    · cases hr
    · exact ⟨n0, by injection hr with h''; exact h''.symm, hbc, hreg'⟩

theorem acquire_serializes_with_token_witness :
    (runSched true (⟨[], [], 0, [], [], []⟩,
        [⟨"foo", .acqReady⟩, ⟨"foo", .acqReady⟩]) [0, 1, 1, 0]).1.bots_created.length ≤ 1 ∧
    (∀ t ∈ (runSched true (⟨[], [], 0, [], [], []⟩,
        [⟨"foo", .acqReady⟩, ⟨"foo", .acqReady⟩]) [0, 1, 1, 0]).2, ∀ r,
      t.state = TaskState.acqDone r →
      ∃ b, r = some b ∧
        (runSched true (⟨[], [], 0, [], [], []⟩,
          [⟨"foo", .acqReady⟩, ⟨"foo", .acqReady⟩]) [0, 1, 1, 0]).1.bots_created = [b] ∧
        dictGet (runSched true (⟨[], [], 0, [], [], []⟩,
          [⟨"foo", .acqReady⟩, ⟨"foo", .acqReady⟩]) [0, 1, 1, 0]).1.active_bots "foo" =
          some b) :=
  acquire_serializes_with_token "foo" 0
    [⟨"foo", .acqReady⟩, ⟨"foo", .acqReady⟩] [0, 1, 1, 0]
    ⟨[], [], 0, [], [], []⟩ rfl rfl rfl
    (by
      intro t ht
      rcases List.mem_cons.1 ht with h | h
      · exact h
      · exact List.mem_singleton.1 h)

end Backend
